import Mathlib

/-!
Verification development for `src/linker.c` (objdl): a minimal loader for
ELF relocatable objects.  The definitions below are a shallow embedding of
the C source: machine integers become `Nat` with explicit `% 2^32` where
32-bit wraparound matters, the process-wide pool/list state becomes an
explicit `LinkerState`, file I/O becomes lookups in a total model of the
file's bytes plus an event trace, and fallible code returns `Option` or a
dedicated outcome type.  Undefined behaviour of the C (out-of-bounds array
reads, the uninitialized `err` variable in the relocation loop when no
`SHT_REL` section precedes) is noted at the definition it would affect and
is not exercised by any theorem.
-/

/-- Capacity of the descriptor pool (`#define SO_MAX 64`, linker.c:53). -/
def SO_MAX : Nat := 64

/-- Modelled from the spec: `SOINFO_NAME_LEN` is defined in `linker.h`,
which is not part of `src/`; the spec fixes only that a fixed maximum name
length exists ("identity: name (fixed maximum length...)").  We use 128,
the value of the Android linker header this file descends from.  No
theorem below depends on the particular value. -/
def SOINFO_NAME_LEN : Nat := 128

/-- Modelled from the spec: the `FLAG_LINKED` status bit is declared in
`linker.h`, which is not part of `src/`; the spec (§3) only requires a
LINKED status flag.  `find_library` tests `si->flags & FLAG_LINKED`. -/
def FLAG_LINKED : Nat := 1

/-- Modelled from the spec: the `FLAG_ERROR` status bit is declared in
`linker.h`, which is not part of `src/`.  `find_library` tests
`si->flags & FLAG_ERROR`. -/
def FLAG_ERROR : Nat := 2

/-- One `soinfo` descriptor's contents (linker.c uses the fields `name`,
`flags`, `ba_index`, `refcount`, `image`, plus the intrusive `next`
pointer; list membership via `next` is modelled by the index lists in
`LinkerState`, so `next` has no field here). -/
structure SoRec where
  name : String
  flags : Nat
  ba_index : Int
  refcount : Nat
  image : Nat → Nat

instance : Inhabited SoRec := ⟨⟨"", 0, 0, 0, fun _ => 0⟩⟩

/-- The loader's process-wide mutable state: `socount`, and the two
intrusive singly-linked lists `freelist` and `solist` over the `sopool`
array (linker.c:85-89), modelled as lists of pool indices plus a map from
index to descriptor contents. -/
structure LinkerState where
  socount : Nat
  freelist : List Nat
  solist : List Nat
  pool : Nat → SoRec

/-- The initial state: `socount = 0`, both lists empty (linker.c:85-89). -/
def initState : LinkerState :=
  { socount := 0, freelist := [], solist := [], pool := fun _ => default }

/-- Embedding of `alloc_info` (linker.c:93-126): reject a name of length
`>= SOINFO_NAME_LEN`; if the freelist is empty, carve a fresh slot from
`sopool` unless `socount == SO_MAX`; pop the freelist head, zero the
descriptor, set its name, `ba_index = -1`, `refcount = 0`.  The returned
descriptor is linked into neither list (the source sets `si->next = NULL`
and never touches `solist`). -/
def alloc_info (st : LinkerState) (name : String) : Option Nat × LinkerState :=
  if SOINFO_NAME_LEN ≤ name.length then (none, st)
  else
    let st1 :=
      if st.freelist = [] then
        if st.socount = SO_MAX then st
        else { st with freelist := [st.socount], socount := st.socount + 1 }
      else st
    match st1.freelist with
    | [] => (none, st1)
    | si :: rest =>
        (some si,
         { st1 with
             freelist := rest,
             pool := Function.update st1.pool si
               { name := name, flags := 0, ba_index := -1, refcount := 0,
                 image := fun _ => 0 } })

/-- Result of `free_info`: success, the error path for a descriptor absent
from `solist` (linker.c:139-143), or the undefined-behaviour path where
the descriptor is the list head and the source would dereference the NULL
`prev` (linker.c:145-148, guarded only by a comment). -/
inductive FreeResult where
  | ok
  | notInList
  | nullDeref
  deriving DecidableEq

/-- Embedding of `free_info` (linker.c:128-151): scan `solist` for the
descriptor; if absent, report the error and return with no state change;
if present and not the head, splice it out of `solist` and push it on the
freelist.  The head case would dereference the NULL predecessor in C and
is modelled as the distinct outcome `nullDeref` with no state change. -/
def free_info (st : LinkerState) (si : Nat) : FreeResult × LinkerState :=
  if si ∈ st.solist then
    if st.solist.head? = some si then (.nullDeref, st)
    else
      (.ok, { st with solist := st.solist.erase si,
                      freelist := si :: st.freelist })
  else (.notInList, st)

/-! ### Section headers and the classify/copy step (§4.3, linker.c:381-450) -/

/-- Section-header type constants from the ELF headers used by linker.c. -/
def SHT_PROGBITS : Nat := 1

/-- The symbol-table section type. -/
def SHT_SYMTAB : Nat := 2

/-- The string-table section type (never included by the sizing loop:
it has no case in either `switch`). -/
def SHT_STRTAB : Nat := 3

/-- The RELA relocation-table section type. -/
def SHT_RELA : Nat := 4

/-- The uninitialized-data section type. -/
def SHT_NOBITS : Nat := 8

/-- The REL relocation-table section type. -/
def SHT_REL : Nat := 9

/-- One `Elf32_Shdr` as read from the file, restricted to the fields
linker.c reads: `sh_name`, `sh_type`, `sh_addr`, `sh_offset`, `sh_size`,
`sh_info`. -/
structure Shdr where
  sh_name : Nat
  sh_type : Nat
  sh_addr : Nat
  sh_offset : Nat
  sh_size : Nat
  sh_info : Nat
  deriving DecidableEq

instance : Inhabited Shdr := ⟨⟨0, 0, 0, 0, 0, 0⟩⟩

/-- The predicate of the sizing loop (linker.c:382-411): a section
contributes its `sh_size` to `totalsize` iff it is a PROGBITS section
named exactly ".data" or ".text", any NOBITS section, any SYMTAB section,
or a RELA/REL section named exactly ".data" or ".text". -/
def sizedIn (sname : String) (p : Shdr) : Bool :=
  if p.sh_type = SHT_PROGBITS then sname = ".data" || sname = ".text"
  else if p.sh_type = SHT_NOBITS then true
  else if p.sh_type = SHT_SYMTAB then true
  else if p.sh_type = SHT_RELA || p.sh_type = SHT_REL then
    sname = ".data" || sname = ".text"
  else false

/-- The `totalsize` accumulated by the sizing loop (linker.c:382-411),
given the section-name string table as a map from `sh_name` offsets to the
C string starting there. -/
def totalsize (shstrtbl : Nat → String) (sechdrs : List Shdr) : Nat :=
  sechdrs.foldl
    (fun acc p => if sizedIn (shstrtbl p.sh_name) p then acc + p.sh_size else acc) 0

/-- The `symindex` recorded by the sizing loop (linker.c:397-401): the
index of the last SHT_SYMTAB section, 0 if there is none. -/
def symindexOf (sechdrs : List Shdr) : Nat :=
  (List.range sechdrs.length).foldl
    (fun acc i => if (sechdrs.getD i default).sh_type = SHT_SYMTAB then i else acc) 0

/-- The predicate of the copy loop (linker.c:418-450): a section's bytes
are read from the file into the image iff it is PROGBITS named ".data" or
".text", NOBITS or SYMTAB (the source's `case SHT_NOBITS:` falls through
to the `elf_loadsection` call shared with `case SHT_SYMTAB:`), or
RELA/REL named ".data" or ".text". -/
def copiedIn (sname : String) (p : Shdr) : Bool :=
  if p.sh_type = SHT_PROGBITS then sname = ".data" || sname = ".text"
  else if p.sh_type = SHT_NOBITS || p.sh_type = SHT_SYMTAB then true
  else if p.sh_type = SHT_RELA || p.sh_type = SHT_REL then
    sname = ".data" || sname = ".text"
  else false

/-- Embedding of `elf_loadsection` (linker.c:229-233): seek to
`sh_offset` and read `sh_size` bytes of the file into the image at write
cursor `q`. -/
def elf_loadsection (file : Nat → Nat) (s : Shdr) (q : Nat)
    (image : Nat → Nat) : Nat → Nat :=
  fun a => if q ≤ a ∧ a < q + s.sh_size then file (s.sh_offset + (a - q)) else image a

/-- Embedding of the copy loop (linker.c:418-450).  For each section in
file order: if `copiedIn` holds, load its file bytes at the cursor (the
RELA/REL branch of the source calls `elf_loadsection` twice, lines
444-445, which we mirror); then — for every section, included or not —
advance the cursor by `sh_size` (line 449, outside the `switch`). -/
def copyLoop (file : Nat → Nat) (shstrtbl : Nat → String) :
    List Shdr → Nat → (Nat → Nat) → (Nat → Nat)
  | [], _, image => image
  | p :: rest, q, image =>
      let image1 :=
        if copiedIn (shstrtbl p.sh_name) p then
          if p.sh_type = SHT_RELA || p.sh_type = SHT_REL then
            elf_loadsection file p q (elf_loadsection file p q image)
          else elf_loadsection file p q image
        else image
      copyLoop file shstrtbl rest (q + p.sh_size) image1

/-- The write-cursor position at which the copy loop reaches section `i`:
the sum of the sizes of all earlier sections (the cursor advances by every
section's size, linker.c:449). -/
def cursorAt (sechdrs : List Shdr) (i : Nat) : Nat :=
  ((sechdrs.take i).map Shdr.sh_size).sum

/-- The whole classify/copy step (linker.c:412-450) as seen by the later
stages: a zero-initialized (`calloc`) image populated by `copyLoop`,
paired with the section-header table it passes on.  The loop reads
`sh_name`, `sh_type`, `sh_offset` and `sh_size` but assigns no header
field — every occurrence of `sh_addr` in linker.c (lines 246, 272, 285,
290, 292) is a read — so the table reaching `update_symbols` and
`do_relocate` is exactly the table read from the file. -/
def loadSections (file : Nat → Nat) (shstrtbl : Nat → String)
    (sechdrs : List Shdr) : (Nat → Nat) × List Shdr :=
  (copyLoop file shstrtbl sechdrs 0 (fun _ => 0), sechdrs)

/-! ### Symbol resolution (§4.4, linker.c:235-277) -/

/-- The reserved undefined section index `SHN_UNDEF`. -/
def SHN_UNDEF : Nat := 0

/-- The absolute section index `SHN_ABS` (0xfff1). -/
def SHN_ABS : Nat := 65521

/-- One `Elf32_Sym`, restricted to the fields linker.c reads or writes:
`st_name`, `st_value`, `st_shndx`. -/
structure Elf32_Sym where
  st_name : Nat
  st_value : Nat
  st_shndx : Nat
  deriving DecidableEq

instance : Inhabited Elf32_Sym := ⟨⟨0, 0, 0⟩⟩

/-- Modelled from the spec: the body of `resolve_symbol`
(linker.c:235-239) is the comment `//to do` — the master-table lookup is
missing from `src/`.  Spec §4.4/§6 fix its contract: look the name up in
the master symbol table by exact name match, the table being an ordered
sequence of (name, address) entries; the caller receives the address on a
hit and a null result on a miss. -/
def resolve_symbol (master : List (String × Nat)) (name : String) : Option Nat :=
  match master with
  | [] => none
  | (n, v) :: rest => if n = name then some v else resolve_symbol rest name

/-- The per-entry body of the `update_symbols` loop (linker.c:255-274):
`SHN_UNDEF` resolves the name through the master table, setting
`st_value` on a hit and hitting `exit(-1)` (here `none`) on a miss;
`SHN_ABS` leaves the entry untouched; any other index sets `st_value` to
`sechdrs[st_shndx].sh_addr`.  The C indexes `sechdrs` without a bounds
check; an out-of-range `st_shndx` (out-of-bounds read in C) is modelled
with the `getD` default and is not exercised by any theorem. -/
def updateOne (sechdrs : List Shdr) (strtab : Nat → String)
    (master : List (String × Nat)) (s : Elf32_Sym) : Option Elf32_Sym :=
  if s.st_shndx = SHN_UNDEF then
    match resolve_symbol master (strtab s.st_name) with
    | some v => some { s with st_value := v }
    | none => none
  else if s.st_shndx = SHN_ABS then some s
  else some { s with st_value := (sechdrs.getD s.st_shndx default).sh_addr }

/-- The `update_symbols` loop over entries 1..num-1, each entry mapped by
`updateOne`; a `none` from any entry aborts the whole pass (the C calls
`exit(-1)` there). -/
def updateSymsAux (sechdrs : List Shdr) (strtab : Nat → String)
    (master : List (String × Nat)) : List Elf32_Sym → Option (List Elf32_Sym)
  | [] => some []
  | s :: rest =>
      match updateOne sechdrs strtab master s,
            updateSymsAux sechdrs strtab master rest with
      | some s1, some rest1 => some (s1 :: rest1)
      | _, _ => none

/-- Outcome of `update_symbols`: the updated table, or process
termination — the unknown-symbol branch (linker.c:261-265) calls
`exit(-1)`, which ends the whole process, not just the load attempt. -/
inductive SymOutcome where
  | ok (syms : List Elf32_Sym)
  | processExit (code : Int)
  deriving DecidableEq

/-- Embedding of `update_symbols` (linker.c:242-277) over the decoded
symbol table (the C reads it through `sechdrs[symindex].sh_addr` and
takes `num = sh_size / sizeof(Elf32_Sym)`; `syms` stands for those `num`
decoded entries).  Entry 0 is skipped (`for (i = 1; ...)`); each later
entry is classified by `st_shndx` as in `updateOne`; an unresolvable
undefined symbol terminates the process with `exit(-1)`. -/
def update_symbols (sechdrs : List Shdr) (strtab : Nat → String)
    (master : List (String × Nat)) (syms : List Elf32_Sym) : SymOutcome :=
  match syms with
  | [] => .ok []
  | s0 :: rest =>
      match updateSymsAux sechdrs strtab master rest with
      | some rest1 => .ok (s0 :: rest1)
      | none => .processExit (-1)

/-! ### Relocation (§4.5, linker.c:279-311) -/

/-- The direct i386 relocation kind `R_386_32` (S+A). -/
def R_386_32 : Nat := 1

/-- The PC-relative i386 relocation kind `R_386_PC32` (S+A-P). -/
def R_386_PC32 : Nat := 2

/-- 2^32, the modulus of the 32-bit unsigned arithmetic performed on the
patched words and on the 32-bit pointers of the target machine. -/
def M32 : Nat := 4294967296

/-- Reduction to a 32-bit unsigned value. -/
def w32 (n : Nat) : Nat := n % M32

/-- `ELF32_R_SYM(r_info)`: the upper 24 bits, `r_info >> 8`. -/
def elf32rSym (info : Nat) : Nat := info / 256

/-- `ELF32_R_TYPE(r_info)`: the low byte, `r_info & 0xff`. -/
def elf32rType (info : Nat) : Nat := info % 256

/-- One `Elf32_Rel` entry: `r_offset` and `r_info`. -/
structure Elf32_Rel where
  r_offset : Nat
  r_info : Nat
  deriving DecidableEq

/-- Whether `do_relocate`'s `switch` supports a relocation entry's kind
(linker.c:295-307): only `R_386_32` and `R_386_PC32`; everything else is
the error branch returning -1. -/
def relSupported (r : Elf32_Rel) : Bool :=
  elf32rType r.r_info = R_386_32 || elf32rType r.r_info = R_386_PC32

/-- The patch target address `where` of one entry (linker.c:290-291):
the relocated section's `sh_addr` plus the entry's `r_offset`, in 32-bit
pointer arithmetic. -/
def relTarget (secaddr : Nat) (r : Elf32_Rel) : Nat := w32 (secaddr + r.r_offset)

/-- The referenced symbol's value (linker.c:292-293, 297): entry
`ELF32_R_SYM(r_info)` of the symbol table.  The C indexes the table with
no bounds check; out of range (an out-of-bounds read in C) is modelled by
the `getD` default and not exercised by any theorem. -/
def relSymValue (syms : List Elf32_Sym) (r : Elf32_Rel) : Nat :=
  (syms.getD (elf32rSym r.r_info) default).st_value

/-- The new 32-bit word for one relocation (linker.c:296-301):
`*where += sym->st_value` for `R_386_32`, and
`*where += sym->st_value - (uint32_t)where` for `R_386_PC32`, computed in
unsigned 32-bit arithmetic (`t` is reduced mod 2^32 first, as the C cast
`(uint32_t)where` does); any other kind is unsupported. -/
def relocWord (rtype old v t : Nat) : Option Nat :=
  if rtype = R_386_32 then some (w32 (old + v))
  else if rtype = R_386_PC32 then some (w32 (old + v + (M32 - w32 t)))
  else none

/-- The entry loop of `do_relocate` (linker.c:289-309) over the decoded
entries of one relocation section.  `mem` maps a byte address to the
32-bit word stored at it (entries patch disjoint words in the source's
use, so word aliasing between overlapping addresses is not modelled).
The first unsupported kind aborts the whole pass with -1 (`none`); a
supported entry stores its new word at the target and the loop
continues. -/
def relocateEntries (secaddr : Nat) (syms : List Elf32_Sym) :
    List Elf32_Rel → (Nat → Nat) → Option (Nat → Nat)
  | [], mem => some mem
  | r :: rest, mem =>
      let t := relTarget secaddr r
      match relocWord (elf32rType r.r_info) (mem t) (relSymValue syms r) t with
      | some w => relocateEntries secaddr syms rest (Function.update mem t w)
      | none => none

/-- Embedding of `do_relocate` (linker.c:279-311): the entries of section
`relsec` patch the section `sechdrs[relsec].sh_info`, whose load address
is read from that section's `sh_addr`; the symbol table is the one at
`symindex` (decoded as `syms`). -/
def do_relocate (sechdrs : List Shdr) (relsec : Nat) (syms : List Elf32_Sym)
    (rels : List Elf32_Rel) (mem : Nat → Nat) : Option (Nat → Nat) :=
  relocateEntries (sechdrs.getD (sechdrs.getD relsec default).sh_info default).sh_addr
    syms rels mem

/-! ### The load orchestrator (§4.6, linker.c:158-194, 209-227, 313-496) -/

/-- One observable file-I/O action of a load: an open attempt on a path
(covering the `stat`/`open` pair of `_open_lib`), an `lseek`, or a
`read`.  The trace records the I/O up to and including the string-table
read (linker.c:316-379); the `elf_loadsection` seeks/reads inside the
copy loop come after every point at issue in the theorems below and are
not traced. -/
inductive Ev where
  | openAttempt (path : String)
  | seekTo (off : Nat)
  | readBytes (n : Nat)
  deriving DecidableEq

/-- The object file behind a successfully opened descriptor, pre-decoded:
the ELF identification bytes and type, the section-header-table offset
and string-table index from the header, the decoded section header table
(`e_shnum` entries), the section-name string table as a map from offsets
to C strings, the raw file bytes, the decoded symbol-table contents, and
the decoded relocation entries of each section (empty for non-REL
sections).  Reads are modelled as always succeeding on an open file, and
`calloc` as always succeeding: the corresponding C failure paths
(linker.c:332-339, 351-378, 413-416) are not at issue in any claim. -/
structure ObjFile where
  e_ident : Nat → Nat
  e_type : Nat
  e_shoff : Nat
  e_shstrndx : Nat
  sechdrs : List Shdr
  shstrtbl : Nat → String
  bytes : Nat → Nat
  syms : List Elf32_Sym
  relEntries : Nat → List Elf32_Rel

/-- The relocatable object type `ET_REL`. -/
def ET_REL : Nat := 1

/-- Embedding of `verify_elf_object` (linker.c:209-227): the four ELF
magic bytes 0x7f 'E' 'L' 'F' and `e_type == ET_REL`; nothing else is
checked. -/
def verify_elf_object (f : ObjFile) : Bool :=
  f.e_ident 0 = 127 && f.e_ident 1 = 69 && f.e_ident 2 = 76 &&
  f.e_ident 3 = 70 && f.e_type = ET_REL

/-- The `name[0] == \'/\'` test of linker.c:184 (an empty name reads the
terminating NUL there, which is not a slash). -/
def firstIsSlash (name : String) : Bool := name.data.head? = some '/'

/-- Embedding of `open_library` (linker.c:158-194) over a model `fs` of
the filesystem.  A name longer than 256 characters is rejected with no
I/O; an absolute name is tried directly first (and on failure the search
loop still runs, as in the C, where the `&&` falls through); the single
search path "." tries `"./" ++ name` (the `snprintf "%s/%s"` of
linker.c:188; no truncation occurs since the name fits in the 512-byte
buffer).  Every `_open_lib` call (its `stat`/`open` pair) appears in the
trace as an open attempt on that path. -/
def open_library (fs : String → Option ObjFile) (name : String) :
    Option ObjFile × List Ev :=
  if 256 < name.length then (none, [])
  else
    let absEvs : List Ev := if firstIsSlash name then [.openAttempt name] else []
    let absHit : Option ObjFile := if firstIsSlash name then fs name else none
    match absHit with
    | some f => (some f, absEvs)
    | none =>
        let buf := "./" ++ name
        (fs buf, absEvs ++ [.openAttempt buf])

/-- The outcome of one `load_library`/`find_library` call: a descriptor
(pool index) returned to the caller, a NULL return the caller can act on,
or termination of the whole process (the `exit(-1)` reachable through
`update_symbols`). -/
inductive LoadOutcome where
  | ok (si : Nat)
  | fail
  | processExit (code : Int)
  deriving DecidableEq

/-- `sizeof(Elf32_Ehdr)`, the header read at linker.c:336. -/
def ehdrSize : Nat := 52

/-- `sizeof(Elf32_Shdr)`, the per-entry size of the table read at
linker.c:360. -/
def shdrSize : Nat := 40

/-- Whether the relocation loop of `load_library` (linker.c:457-465)
succeeds: every `SHT_REL` section at index 1 or above must carry only
supported relocation kinds (`do_relocate` returns -1 at the first
unsupported kind; `SHT_RELA` sections are a to-do branch that changes
nothing).  The loop tests the uninitialized `err` before any `SHT_REL`
section has been processed — undefined behaviour in C; the model takes
the check as meaningful only for the REL results, and no theorem
exercises an object whose first processed section is not `SHT_REL`-free
of errors. -/
def relLoopOk (f : ObjFile) : Bool :=
  (List.range f.sechdrs.length).all fun i =>
    if i = 0 then true
    else if (f.sechdrs.getD i default).sh_type = SHT_REL then
      (f.relEntries i).all relSupported
    else true

/-- Embedding of `load_library` (linker.c:313-475).  Stages in source
order: open (with its trace); seek 0 and read the ELF header; verify;
`alloc_info` (the name-length check lives there, after the header I/O);
read the section-header table and the section-name string table;
`calloc` the image of `totalsize` bytes and run the copy loop, storing
the image in the descriptor; `update_symbols` (whose unresolved-symbol
branch exits the process); the relocation loop; on success return the
descriptor — the source neither links it into `solist` nor sets any
flag (the `sonext` tail pointer of linker.c:89 is never used).  On a
relocation failure the source calls `free_info(si)` and returns NULL;
since `si` is in no list, that call reports its error and changes
nothing. -/
def load_library (fs : String → Option ObjFile)
    (master : List (String × Nat)) (st : LinkerState) (name : String) :
    LoadOutcome × LinkerState × List Ev :=
  match open_library fs name with
  | (none, evs) => (.fail, st, evs)
  | (some f, evs0) =>
      let evs1 := evs0 ++ [Ev.seekTo 0, Ev.readBytes ehdrSize]
      if verify_elf_object f = false then (.fail, st, evs1)
      else
        match alloc_info st name with
        | (none, st1) => (.fail, st1, evs1)
        | (some si, st1) =>
            let strsec := f.sechdrs.getD f.e_shstrndx default
            let evs2 := evs1 ++
              [Ev.seekTo f.e_shoff, Ev.readBytes (f.sechdrs.length * shdrSize),
               Ev.seekTo strsec.sh_offset, Ev.readBytes strsec.sh_size]
            let img := (loadSections f.bytes f.shstrtbl f.sechdrs).1
            let st2 := { st1 with
              pool := Function.update st1.pool si
                { st1.pool si with image := img } }
            match update_symbols f.sechdrs f.shstrtbl master f.syms with
            | .processExit c => (.processExit c, st2, evs2)
            | .ok _ =>
                if relLoopOk f then (.ok si, st2, evs2)
                else (.fail, (free_info st2 si).2, evs2)

/-- Embedding of `find_library` (linker.c:477-496): scan `solist` for a
descriptor whose name matches; on a hit, FLAG_ERROR fails, FLAG_LINKED
returns the descriptor, and anything else is the "recursive link" error
returning NULL; on a miss, fall through to `load_library`. -/
def find_library (fs : String → Option ObjFile)
    (master : List (String × Nat)) (st : LinkerState) (name : String) :
    LoadOutcome × LinkerState × List Ev :=
  match st.solist.find? (fun i => (st.pool i).name = name) with
  | some i =>
      let r := st.pool i
      if r.flags &&& FLAG_ERROR ≠ 0 then (.fail, st, [])
      else if r.flags &&& FLAG_LINKED ≠ 0 then (.ok i, st, [])
      else (.fail, st, [])
  | none => load_library fs master st name

/-! ### Concrete objects used to evaluate the code at specific inputs -/

/-- Section-name string table of the two-section object `hdrsA`: offset 1
holds ".text", offset 7 holds ".bss". -/
def strtblA : Nat → String :=
  fun n => if n = 1 then ".text" else if n = 7 then ".bss" else ""

/-- A section-header table with the null section, one PROGBITS ".text" of
size 16 at file offset 100, and one NOBITS ".bss" of size 8 whose
`sh_offset` field is 116 (for a real NOBITS section that file region
holds whatever follows, not section bytes). -/
def hdrsA : List Shdr :=
  [default, ⟨1, SHT_PROGBITS, 0, 100, 16, 0⟩, ⟨7, SHT_NOBITS, 0, 116, 8, 0⟩]

/-- File bytes for `hdrsA`: nonzero everywhere; in particular the bytes
at offsets 116..124 (where the NOBITS `sh_offset` points) are 171. -/
def bytesA : Nat → Nat := fun n => if n < 116 then n % 251 + 1 else 171

/-- Section-name string table of `hdrsB`: ".text" at offset 1,
".shstrtab" at offset 7, ".symtab" at offset 17. -/
def strtblB : Nat → String :=
  fun n => if n = 1 then ".text" else if n = 7 then ".shstrtab"
           else if n = 17 then ".symtab" else ""

/-- A section-header table in which an excluded section sits between two
included ones: the null section, PROGBITS ".text" of size 16, STRTAB
".shstrtab" of size 10 (no case in either switch: excluded), and SYMTAB
".symtab" of size 24 (included). -/
def hdrsB : List Shdr :=
  [default, ⟨1, SHT_PROGBITS, 0, 100, 16, 0⟩, ⟨7, SHT_STRTAB, 0, 116, 10, 0⟩,
   ⟨17, SHT_SYMTAB, 0, 126, 24, 0⟩]

/-- File bytes for `hdrsB`: nonzero everywhere. -/
def bytesB : Nat → Nat := fun n => n % 251 + 1

/-! ### C9 and C10: the descriptor pool -/

/-- C9: the claim — that once the pool is initialized every pool
descriptor is a member of exactly one of the free list and the active
list, preserved by every allocate — fails at the very first allocation:
`alloc_info` on the initial state hands out descriptor 0 after popping it
from the freelist, but links it into neither list (linker.c never inserts
into `solist`; the `sonext` tail pointer kept for that purpose in the
ancestral code is declared at linker.c:89 and never used). -/
theorem C9_alloc_info_leaves_descriptor_in_no_list :
    (alloc_info initState "a").1 = some 0 ∧
    0 ∉ (alloc_info initState "a").2.freelist ∧
    0 ∉ (alloc_info initState "a").2.solist := by
  decide

/-- C10: `free_info` called on a descriptor that is not in the active
list reports the error (linker.c:139-143) and returns with the active
list, the free list and the descriptor pool all unchanged. -/
theorem C10_free_info_absent_is_noop :
    ∀ (st : LinkerState) (si : Nat), si ∉ st.solist →
      free_info st si = (FreeResult.notInList, st) := by
  intro st si h
  unfold free_info
  rw [if_neg h]

/-- Witness for C10 at a concrete state: releasing descriptor 5 while the
active list holds only descriptor 0 reports the error and changes
nothing. -/
def stW : LinkerState :=
  { socount := 2, freelist := [1], solist := [0], pool := fun _ => default }

/-- Witness: C10 applied at `stW` and descriptor 5. -/
theorem C10_free_info_absent_is_noop_witness :
    free_info stW 5 = (FreeResult.notInList, stW) :=
  C10_free_info_absent_is_noop stW 5 (by decide)

/-! ### C2, C4, C5: the classify/copy step -/

/-- C2: the claim — that after the classify/copy step every included
section's header holds its image load offset in `sh_addr` — fails on the
code: the copy loop (linker.c:418-450) returns the header table exactly
as read from the file (every occurrence of `sh_addr` in linker.c is a
read), so the included ".bss" section at walk offset 16 still carries its
file `sh_addr` 0, and the later symbol/relocation steps read that stale
value. -/
theorem C2_sh_addr_never_repurposed :
    (loadSections bytesA strtblA hdrsA).2 = hdrsA ∧
    sizedIn (strtblA 7) (hdrsA.getD 2 default) = true ∧
    cursorAt hdrsA 2 = 16 ∧
    ((loadSections bytesA strtblA hdrsA).2.getD 2 default).sh_addr = 0 := by
  decide

/-- C4: the claim — that a NOBITS section only reserves its size and
contributes no file bytes, leaving offsets 16..24 of the 24-byte image
zero-filled — fails on the code: `case SHT_NOBITS:` (linker.c:434) falls
through to the `elf_loadsection` call, so the image byte at offset 16 is
the file byte at the section's `sh_offset` (171), not 0.  The total image
size of 24 does hold. -/
theorem C4_nobits_copies_file_bytes :
    totalsize strtblA hdrsA = 24 ∧
    (loadSections bytesA strtblA hdrsA).1 0 = bytesA 100 ∧
    (loadSections bytesA strtblA hdrsA).1 16 = 171 := by
  decide

/-- C5: the claim — image size equals the sum of included section sizes,
included sections sit at consecutive offsets in walk order, and every
copied byte lands inside the buffer — fails on the code: the write cursor
advances by every section's size (linker.c:449, outside the switch), so
after the excluded 10-byte ".shstrtab" the included ".symtab" is copied
at offset 26 instead of 16, its copy extends to offset 50 in a 40-byte
buffer, and in particular the file byte 146 is written at offset 45,
outside the allocation. -/
theorem C5_cursor_overruns_image :
    totalsize strtblB hdrsB = 40 ∧
    sizedIn (strtblB 17) (hdrsB.getD 3 default) = true ∧
    cursorAt hdrsB 3 = 26 ∧
    totalsize strtblB hdrsB < cursorAt hdrsB 3 + (hdrsB.getD 3 default).sh_size ∧
    (loadSections bytesB strtblB hdrsB).1 45 = 146 := by
  decide

/-! ### C3: symbol resolution -/

/-- A successful `updateSymsAux` pass maps each entry through
`updateOne`: every input entry has a successfully updated counterpart at
the same position of the output. -/
theorem updateSymsAux_ok (sechdrs : List Shdr) (strtab : Nat → String)
    (master : List (String × Nat)) :
    ∀ (l out : List Elf32_Sym),
      updateSymsAux sechdrs strtab master l = some out →
      ∀ (j : Nat) (s : Elf32_Sym), l[j]? = some s →
        ∃ s1, updateOne sechdrs strtab master s = some s1 ∧ out[j]? = some s1 := by
  intro l
  induction l with
  | nil =>
      intro out h j s hj
      simp at hj
  | cons s0 rest ih =>
      intro out h j s hj
      unfold updateSymsAux at h
      cases h1 : updateOne sechdrs strtab master s0 with
      | none => rw [h1] at h; simp at h
      | some s1 =>
          cases h2 : updateSymsAux sechdrs strtab master rest with
          | none => rw [h1, h2] at h; simp at h
          | some rest1 =>
              rw [h1, h2] at h
              simp at h
              subst h
              cases j with
              | zero =>
                  simp at hj
                  subst hj
                  exact ⟨s1, h1, by simp⟩
              | succ j =>
                  simp at hj
                  have := ih rest1 h2 j s hj
                  simpa using this

/-- C3: `update_symbols`, on a pass that returns (rather than exiting the
process), leaves the reserved entry 0 untouched and maps every later
entry by its `st_shndx` class exactly as linker.c:255-274 does: an
undefined (external) entry's value becomes the master table's address for
that exact name, an absolute entry is unchanged, and a defined-internal
entry's value becomes the `sh_addr` recorded for its owning section —
the field §4.3 designates as the section's load address within the
image. -/
theorem C3_update_symbols_classification :
    ∀ (sechdrs : List Shdr) (strtab : Nat → String)
      (master : List (String × Nat)) (syms out : List Elf32_Sym),
      update_symbols sechdrs strtab master syms = SymOutcome.ok out →
      out[0]? = syms[0]? ∧
      ∀ (i : Nat) (s : Elf32_Sym), syms[i + 1]? = some s →
        ((s.st_shndx = SHN_UNDEF →
           ∃ v, resolve_symbol master (strtab s.st_name) = some v ∧
                out[i + 1]? = some { s with st_value := v }) ∧
         (s.st_shndx = SHN_ABS → out[i + 1]? = some s) ∧
         (s.st_shndx ≠ SHN_UNDEF → s.st_shndx ≠ SHN_ABS →
           out[i + 1]? = some
             { s with st_value := (sechdrs.getD s.st_shndx default).sh_addr })) := by
  intro sechdrs strtab master syms out h
  cases syms with
  | nil =>
      unfold update_symbols at h
      simp at h
      subst h
      exact ⟨rfl, by intro i s hs; simp at hs⟩
  | cons s0 rest =>
      have h : (match updateSymsAux sechdrs strtab master rest with
                | some rest1 => SymOutcome.ok (s0 :: rest1)
                | none => SymOutcome.processExit (-1)) = SymOutcome.ok out := h
      cases h2 : updateSymsAux sechdrs strtab master rest with
      | none => rw [h2] at h; cases h
      | some rest1 =>
          rw [h2] at h
          cases h
          constructor
          · simp
          · intro i s hs
            simp at hs
            obtain ⟨s1, hupd, hout⟩ :=
              updateSymsAux_ok sechdrs strtab master rest rest1 h2 i s hs
            have hout1 : (s0 :: rest1)[i + 1]? = some s1 := by simpa using hout
            refine ⟨?_, ?_, ?_⟩
            · intro h0
              unfold updateOne at hupd
              rw [if_pos h0] at hupd
              cases hr : resolve_symbol master (strtab s.st_name) with
              | none => rw [hr] at hupd; cases hupd
              | some v =>
                  rw [hr] at hupd
                  refine ⟨v, rfl, ?_⟩
                  cases hupd
                  exact hout1
            · intro h0
              unfold updateOne at hupd
              rw [if_neg (by rw [h0]; decide), if_pos h0] at hupd
              cases hupd
              exact hout1
            · intro h0 h1
              unfold updateOne at hupd
              rw [if_neg h0, if_neg h1] at hupd
              cases hupd
              exact hout1

/-- Section table for the C3 witness: section 1 has `sh_addr` 256. -/
def sechdrsW : List Shdr := [default, ⟨1, SHT_PROGBITS, 256, 100, 16, 0⟩]

/-- String table for the C3 witness: offset 5 holds "foo". -/
def strtabW : Nat → String := fun n => if n = 5 then "foo" else ""

/-- Master symbol table for the C3 witness. -/
def masterW : List (String × Nat) := [("bar", 17), ("foo", 66)]

/-- Symbol table for the C3 witness: the reserved entry, an undefined
"foo", an absolute entry, and a defined-internal entry owned by
section 1. -/
def symsW : List Elf32_Sym := [default, ⟨5, 0, 0⟩, ⟨9, 7, 65521⟩, ⟨0, 3, 1⟩]

/-- The table `update_symbols` produces from `symsW`. -/
def outW : List Elf32_Sym := [default, ⟨5, 66, 0⟩, ⟨9, 7, 65521⟩, ⟨0, 256, 1⟩]

/-- Witness: C3 applied to the concrete run `update_symbols` on `symsW`,
instantiating each of the three classes. -/
theorem C3_update_symbols_classification_witness :
    (∃ v, resolve_symbol masterW (strtabW 5) = some v ∧
          outW[1]? = some ⟨5, v, 0⟩) ∧
    outW[2]? = some ⟨9, 7, 65521⟩ ∧
    outW[3]? = some ⟨0, 256, 1⟩ := by
  have h := C3_update_symbols_classification sechdrsW strtabW masterW symsW outW
    (by decide)
  refine ⟨?_, ?_, ?_⟩
  · exact (h.2 0 ⟨5, 0, 0⟩ (by decide)).1 (by decide)
  · exact (h.2 1 ⟨9, 7, 65521⟩ (by decide)).2.1 (by decide)
  · exact (h.2 2 ⟨0, 3, 1⟩ (by decide)).2.2 (by decide) (by decide)

/-! ### C6: relocation arithmetic -/

/-- C6: one step of the `do_relocate` entry loop on a supported entry.
With target `T = relTarget secaddr r` (the section load address plus the
entry offset, as a 32-bit pointer) holding the word `old = mem T`, and
`V = relSymValue syms r` the referenced resolved symbol value: a direct
`R_386_32` relocation stores a word congruent to `old + V` and a
PC-relative `R_386_PC32` relocation stores a word congruent to
`old + V - T`, both words reduced into `[0, 2^32)` — unsigned 32-bit
wraparound — and the loop continues on the remaining entries with only
the word at `T` changed. -/
theorem C6_relocation_arithmetic :
    ∀ (secaddr : Nat) (syms : List Elf32_Sym) (mem : Nat → Nat)
      (r : Elf32_Rel) (rest : List Elf32_Rel),
      (elf32rType r.r_info = R_386_32 →
        relocateEntries secaddr syms (r :: rest) mem =
          relocateEntries secaddr syms rest
            (Function.update mem (relTarget secaddr r)
              (w32 (mem (relTarget secaddr r) + relSymValue syms r))) ∧
        w32 (mem (relTarget secaddr r) + relSymValue syms r) < M32 ∧
        ((w32 (mem (relTarget secaddr r) + relSymValue syms r) : Int) ≡
          (mem (relTarget secaddr r) : Int) + relSymValue syms r
            [ZMOD (M32 : Int)])) ∧
      (elf32rType r.r_info = R_386_PC32 →
        relocateEntries secaddr syms (r :: rest) mem =
          relocateEntries secaddr syms rest
            (Function.update mem (relTarget secaddr r)
              (w32 (mem (relTarget secaddr r) + relSymValue syms r +
                    (M32 - w32 (relTarget secaddr r))))) ∧
        w32 (mem (relTarget secaddr r) + relSymValue syms r +
             (M32 - w32 (relTarget secaddr r))) < M32 ∧
        ((w32 (mem (relTarget secaddr r) + relSymValue syms r +
               (M32 - w32 (relTarget secaddr r))) : Int) ≡
          (mem (relTarget secaddr r) : Int) + relSymValue syms r -
            relTarget secaddr r [ZMOD (M32 : Int)])) := by
  intro secaddr syms mem r rest
  constructor
  · intro h
    have hw : relocWord (elf32rType r.r_info) (mem (relTarget secaddr r))
        (relSymValue syms r) (relTarget secaddr r) =
        some (w32 (mem (relTarget secaddr r) + relSymValue syms r)) := by
      rw [h]; rfl
    refine ⟨?_, ?_, ?_⟩
    · simp only [relocateEntries]
      rw [hw]
    · unfold w32
      exact Nat.mod_lt _ (by norm_num [M32])
    · unfold Int.ModEq w32 M32
      omega
  · intro h
    have hne : elf32rType r.r_info ≠ R_386_32 := by
      rw [h]; decide
    have hw : relocWord (elf32rType r.r_info) (mem (relTarget secaddr r))
        (relSymValue syms r) (relTarget secaddr r) =
        some (w32 (mem (relTarget secaddr r) + relSymValue syms r +
                   (M32 - w32 (relTarget secaddr r)))) := by
      unfold relocWord
      rw [if_neg hne, if_pos h]
    refine ⟨?_, ?_, ?_⟩
    · simp only [relocateEntries]
      rw [hw]
    · unfold w32
      exact Nat.mod_lt _ (by norm_num [M32])
    · unfold Int.ModEq relTarget w32 M32
      omega

/-- Symbol table for the C6 witness: values 100 (entry 1) and 500
(entry 2). -/
def symsC6 : List Elf32_Sym := [default, ⟨0, 100, 0⟩, ⟨0, 500, 0⟩]

/-- Memory for the C6 witness: every word holds 7. -/
def memC6 : Nat → Nat := fun _ => 7

/-- Witness: C6 applied to a concrete direct entry (offset 4, `r_info`
257: symbol 1, kind `R_386_32`) and a concrete PC-relative entry
(offset 8, `r_info` 514: symbol 2, kind `R_386_PC32`). -/
theorem C6_relocation_arithmetic_witness :
    (relocateEntries 0 symsC6 [⟨4, 257⟩] memC6 =
      relocateEntries 0 symsC6 []
        (Function.update memC6 (relTarget 0 ⟨4, 257⟩)
          (w32 (memC6 (relTarget 0 ⟨4, 257⟩) + relSymValue symsC6 ⟨4, 257⟩))) ∧
     ((w32 (memC6 (relTarget 0 ⟨4, 257⟩) + relSymValue symsC6 ⟨4, 257⟩) : Int) ≡
       (memC6 (relTarget 0 ⟨4, 257⟩) : Int) + relSymValue symsC6 ⟨4, 257⟩
         [ZMOD (M32 : Int)])) ∧
    (relocateEntries 0 symsC6 [⟨8, 514⟩] memC6 =
      relocateEntries 0 symsC6 []
        (Function.update memC6 (relTarget 0 ⟨8, 514⟩)
          (w32 (memC6 (relTarget 0 ⟨8, 514⟩) + relSymValue symsC6 ⟨8, 514⟩ +
                (M32 - w32 (relTarget 0 ⟨8, 514⟩))))) ∧
     ((w32 (memC6 (relTarget 0 ⟨8, 514⟩) + relSymValue symsC6 ⟨8, 514⟩ +
            (M32 - w32 (relTarget 0 ⟨8, 514⟩))) : Int) ≡
       (memC6 (relTarget 0 ⟨8, 514⟩) : Int) + relSymValue symsC6 ⟨8, 514⟩ -
         relTarget 0 ⟨8, 514⟩ [ZMOD (M32 : Int)])) := by
  have h1 := (C6_relocation_arithmetic 0 symsC6 memC6 ⟨4, 257⟩ []).1 (by decide)
  have h2 := (C6_relocation_arithmetic 0 symsC6 memC6 ⟨8, 514⟩ []).2 (by decide)
  exact ⟨⟨h1.1, h1.2.2⟩, ⟨h2.1, h2.2.2⟩⟩

/-! ### C1, C7, C8: the load orchestrator -/

/-- Valid ELF identification bytes: 0x7f 'E' 'L' 'F'. -/
def identOk : Nat → Nat :=
  fun i => if i = 0 then 127 else if i = 1 then 69
           else if i = 2 then 76 else if i = 3 then 70 else 0

/-- A minimal valid relocatable object that loads successfully: the null
section plus one empty `SHT_REL` section (so the relocation loop runs and
sets `err`), no symbols, no relocation entries. -/
def fileC1 : ObjFile :=
  { e_ident := identOk, e_type := 1, e_shoff := 52, e_shstrndx := 0,
    sechdrs := [default, ⟨0, SHT_REL, 0, 200, 0, 1⟩],
    shstrtbl := fun _ => "", bytes := fun _ => 0, syms := [],
    relEntries := fun _ => [] }

/-- A filesystem with `fileC1` at "./libx". -/
def fsC1 : String → Option ObjFile :=
  fun s => if s = "./libx" then some fileC1 else none

/-- C1: the claim — that after a successful load a LINKED descriptor for
the name is reachable from the active list and a second `find` returns
that same descriptor with no second file open — fails on the code:
`load_library` returns the descriptor without linking it into `solist`
and without setting `FLAG_LINKED` (linker.c:466-469; the `sonext` tail
pointer kept for the insertion in the ancestral code is declared at
linker.c:89 and never used), so after the first successful
`find_library("libx")` the active list is still empty and the descriptor
is unlinked and unflagged, and the second call misses the registry, opens
"./libx" again, and builds a second image in a second descriptor. -/
theorem C1_second_find_reopens_and_reloads :
    (find_library fsC1 [] initState "libx").1 = LoadOutcome.ok 0 ∧
    (find_library fsC1 [] initState "libx").2.1.solist = [] ∧
    ((find_library fsC1 [] initState "libx").2.1.pool 0).flags &&& FLAG_LINKED = 0 ∧
    (find_library fsC1 [] (find_library fsC1 [] initState "libx").2.1 "libx").1 =
      LoadOutcome.ok 1 ∧
    Ev.openAttempt "./libx" ∈
      (find_library fsC1 [] (find_library fsC1 [] initState "libx").2.1 "libx").2.2 := by
  decide

/-- An object whose symbol table holds an undefined entry whose name
(the empty string at string-table offset 0) no master table resolves. -/
def fileC7 : ObjFile :=
  { e_ident := identOk, e_type := 1, e_shoff := 52, e_shstrndx := 0,
    sechdrs := [default, ⟨0, SHT_SYMTAB, 0, 100, 32, 0⟩],
    shstrtbl := fun _ => "", bytes := fun _ => 0,
    syms := [default, ⟨0, 0, 0⟩],
    relEntries := fun _ => [] }

/-- A filesystem with `fileC7` at "./liby". -/
def fsC7 : String → Option ObjFile :=
  fun s => if s = "./liby" then some fileC7 else none

/-- An object carrying one relocation entry of unsupported kind 5 in its
`SHT_REL` section. -/
def fileC7b : ObjFile :=
  { e_ident := identOk, e_type := 1, e_shoff := 52, e_shstrndx := 0,
    sechdrs := [default, ⟨0, SHT_REL, 0, 200, 8, 1⟩],
    shstrtbl := fun _ => "", bytes := fun _ => 0, syms := [],
    relEntries := fun i => if i = 1 then [⟨0, 5⟩] else [] }

/-- A filesystem with `fileC7b` at "./libz". -/
def fsC7b : String → Option ObjFile :=
  fun s => if s = "./libz" then some fileC7b else none

/-- C7, counterexample: loading an object with an unresolved external
symbol does not hand the caller a failure — the unknown-symbol branch of
`update_symbols` (linker.c:261-265) calls `exit(-1)`, terminating the
whole process, so no caller can retry a different module after it. -/
theorem C7_unresolved_symbol_exits_process :
    (load_library fsC7 [] initState "liby").1 = LoadOutcome.processExit (-1) ∧
    (load_library fsC7 [] initState "liby").1 ≠ LoadOutcome.fail := by
  decide

/-- C7, amended: an unsupported relocation kind makes the whole
`do_relocate` pass fail with no skip-and-continue, and makes the load
return NULL to the caller (the process continues, so a different module
may be retried); an unresolved external symbol also aborts with no skip,
but by terminating the whole process through `exit(-1)`, so that failure
never reaches the caller. -/
theorem C7_amended_failure_modes :
    (∀ (secaddr : Nat) (syms : List Elf32_Sym) (rels : List Elf32_Rel)
       (mem : Nat → Nat) (r : Elf32_Rel), r ∈ rels → relSupported r = false →
       relocateEntries secaddr syms rels mem = none) ∧
    (∀ (fs : String → Option ObjFile) (master : List (String × Nat))
       (st : LinkerState) (name : String) (f : ObjFile) (evs : List Ev)
       (si : Nat) (st1 : LinkerState) (ys : List Elf32_Sym),
       open_library fs name = (some f, evs) →
       verify_elf_object f = true →
       alloc_info st name = (some si, st1) →
       update_symbols f.sechdrs f.shstrtbl master f.syms = SymOutcome.ok ys →
       relLoopOk f = false →
       (load_library fs master st name).1 = LoadOutcome.fail) ∧
    (∀ (fs : String → Option ObjFile) (master : List (String × Nat))
       (st : LinkerState) (name : String) (f : ObjFile) (evs : List Ev)
       (si : Nat) (st1 : LinkerState) (c : Int),
       open_library fs name = (some f, evs) →
       verify_elf_object f = true →
       alloc_info st name = (some si, st1) →
       update_symbols f.sechdrs f.shstrtbl master f.syms = SymOutcome.processExit c →
       (load_library fs master st name).1 = LoadOutcome.processExit c) := by
  refine ⟨?_, ?_, ?_⟩
  · intro secaddr syms rels
    induction rels with
    | nil =>
        intro mem r hr hsupp
        simp at hr
    | cons r0 rest ih =>
        intro mem r hr hsupp
        rcases List.mem_cons.mp hr with h0 | h0
        · subst h0
          simp only [relSupported, Bool.or_eq_false_iff,
            decide_eq_false_iff_not] at hsupp
          simp only [relocateEntries]
          rw [show relocWord (elf32rType r.r_info) (mem (relTarget secaddr r))
                (relSymValue syms r) (relTarget secaddr r) = none from by
              unfold relocWord
              rw [if_neg hsupp.1, if_neg hsupp.2]]
        · cases hw : relocWord (elf32rType r0.r_info) (mem (relTarget secaddr r0))
              (relSymValue syms r0) (relTarget secaddr r0) with
          | none => simp only [relocateEntries]; rw [hw]
          | some w =>
              simp only [relocateEntries]
              rw [hw]
              exact ih _ r h0 hsupp
  · intro fs master st name f evs si st1 ys hopen hverify halloc hupd hrel
    simp [load_library, hopen, hverify, halloc, hupd, hrel]
  · intro fs master st name f evs si st1 c hopen hverify halloc hupd
    simp [load_library, hopen, hverify, halloc, hupd]

/-- Witness: C7 applied at concrete inputs — the unsupported entry of
kind 5 aborts `relocateEntries`; loading "./libz" (whose `SHT_REL`
section carries that entry) hands the caller a NULL while the process
survives; loading "./liby" (whose symbol table holds an unresolvable
undefined entry) terminates the process with code -1. -/
theorem C7_amended_failure_modes_witness :
    relocateEntries 0 [] [⟨0, 5⟩] memC6 = none ∧
    (load_library fsC7b [] initState "libz").1 = LoadOutcome.fail ∧
    (load_library fsC7 [] initState "liby").1 = LoadOutcome.processExit (-1) := by
  have h := C7_amended_failure_modes
  refine ⟨?_, ?_, ?_⟩
  · exact h.1 0 [] [⟨0, 5⟩] memC6 ⟨0, 5⟩ (by decide) (by decide)
  · exact h.2.1 fsC7b [] initState "libz" fileC7b [Ev.openAttempt "./libz"] 0
      (alloc_info initState "libz").2 [] rfl (by decide) rfl (by decide) (by decide)
  · exact h.2.2 fsC7 [] initState "liby" fileC7 [Ev.openAttempt "./liby"] 0
      (alloc_info initState "liby").2 (-1) rfl (by decide) rfl (by decide)

/-- C8, amended: a load request whose name length is at or above
`SOINFO_NAME_LEN` always fails and leaves the loader state unchanged (no
descriptor is allocated), but the rejection happens inside `alloc_info`
(linker.c:97-100), which `load_library` only reaches at linker.c:345 —
after `open_library` and the header seek and read (linker.c:316-343): when
the open succeeds, the call's trace is exactly the open trace followed by
the header seek and header read. -/
theorem C8_long_name_fails_after_header_io :
    ∀ (fs : String → Option ObjFile) (master : List (String × Nat))
      (st : LinkerState) (name : String),
      SOINFO_NAME_LEN ≤ name.length →
      (load_library fs master st name).1 = LoadOutcome.fail ∧
      (load_library fs master st name).2.1 = st ∧
      ∀ (f : ObjFile) (evs : List Ev),
        open_library fs name = (some f, evs) →
        (load_library fs master st name).2.2 =
          evs ++ [Ev.seekTo 0, Ev.readBytes ehdrSize] := by
  intro fs master st name hlen
  have halloc : alloc_info st name = (none, st) := by
    unfold alloc_info
    rw [if_pos hlen]
  rcases hopen : open_library fs name with ⟨fo, evs⟩
  cases fo with
  | none =>
      refine ⟨by simp [load_library, hopen], by simp [load_library, hopen], ?_⟩
      intro f evs2 h
      simp at h
  | some f =>
      cases hv : verify_elf_object f with
      | false =>
          refine ⟨by simp [load_library, hopen, hv], by simp [load_library, hopen, hv], ?_⟩
          intro f2 evs2 h
          simp at h
          rw [← h.2]
          simp [load_library, hopen, hv]
      | true =>
          refine ⟨by simp [load_library, hopen, hv, halloc],
                  by simp [load_library, hopen, hv, halloc], ?_⟩
          intro f2 evs2 h
          simp at h
          rw [← h.2]
          simp [load_library, hopen, hv, halloc]

/-- A name of exactly `SOINFO_NAME_LEN` (128) characters. -/
def nameC8 : String := String.mk (List.replicate 128 'a')

/-- A filesystem holding a perfectly valid relocatable object under the
128-character name (so that only the name length makes the load fail). -/
def fsC8 : String → Option ObjFile :=
  fun s => if s = "./" ++ nameC8 then some fileC1 else none

set_option maxRecDepth 40000 in
/-- C8, counterexample: with the 128-character name, the load does fail,
but its trace already contains the open attempt on "./<name>" and the
52-byte header read — file I/O happened before the name-too-long
rejection, contradicting the claim that the request fails before any
I/O is attempted. -/
theorem C8_io_before_name_check :
    (load_library fsC8 [] initState nameC8).1 = LoadOutcome.fail ∧
    Ev.openAttempt ("./" ++ nameC8) ∈ (load_library fsC8 [] initState nameC8).2.2 ∧
    Ev.readBytes ehdrSize ∈ (load_library fsC8 [] initState nameC8).2.2 := by
  decide

set_option maxRecDepth 40000 in
/-- Witness: C8 applied at the 128-character name over `fsC8`. -/
theorem C8_long_name_fails_after_header_io_witness :
    SOINFO_NAME_LEN ≤ nameC8.length ∧
    (load_library fsC8 [] initState nameC8).1 = LoadOutcome.fail ∧
    (load_library fsC8 [] initState nameC8).2.1 = initState := by
  have h := C8_long_name_fails_after_header_io fsC8 [] initState nameC8 (by decide)
  exact ⟨by decide, h.1, h.2.1⟩
